import Mathlib

/-!
Verification of the per-symbol price-forecasting service (`ml_service.py`).

The embedding models prices, volumes and derived features as exact rationals,
with an explicit `FVal` type for the IEEE-style results of the percent-change
divisions (`nan`, `+inf`, `-inf`, or a finite value): pandas' `dropna` removes
rows containing NaN but keeps infinities, and the embedding mirrors that.
The regression estimator and the feature scaler are opaque capabilities: the
development is parametrised by a type `F` of fitted pipelines, a fitting
function `List (FeatureRow × ℚ) → F` and an application function
`F → FeatureRow → ℚ`.
-/

/- The Batteries rational operations are `@[irreducible]`; concrete witness
evaluations need them to reduce. -/
set_option allowUnsafeReducibility true in
attribute [semireducible] Rat.add Rat.mul Rat.sub Rat.inv Rat.ofScientific

/-- One observation: a row of the ingested `data` list
(`{symbol, price, volume, timestamp}`).  Timestamps are modelled as integers
(`pd.to_datetime` yields a totally ordered value). -/
structure Obs where
  symbol : String
  price : ℚ
  volume : ℚ
  timestamp : ℤ
deriving DecidableEq, Repr, Inhabited

/-- Result of a floating-point division as pandas/numpy produce it:
`nan` (0/0, or missing prior value), signed infinity (x/0 with x ≠ 0),
or a finite value. -/
inductive FVal where
  | nan : FVal
  | pinf : FVal
  | ninf : FVal
  | val : ℚ → FVal
deriving DecidableEq, Repr

/-- Whether an `FVal` is NaN (`dropna` removes exactly these rows). -/
def FVal.isNaN : FVal → Bool
  | .nan => true
  | _ => false

/-- IEEE-style division `num / den`: `nan` for 0/0, signed infinity for
division of a nonzero numerator by zero, otherwise the exact quotient. -/
def fdiv (num den : ℚ) : FVal :=
  if den = 0 then
    if num = 0 then .nan else if 0 < num then .pinf else .ninf
  else .val (num / den)

/-- Price of the `i`-th row of the (sorted) frame; total via a default. -/
def priceAt (obs : List Obs) (i : ℕ) : ℚ :=
  (obs.getD i default).price

/-- Volume of the `i`-th row of the (sorted) frame. -/
def volumeAt (obs : List Obs) (i : ℕ) : ℚ :=
  (obs.getD i default).volume

/-- `df['price'].rolling(window=5).mean()` at row `i` (defined for `4 ≤ i`;
the guard lives in `rowValid`). -/
def sma5 (obs : List Obs) (i : ℕ) : ℚ :=
  (priceAt obs (i - 4) + priceAt obs (i - 3) + priceAt obs (i - 2) +
    priceAt obs (i - 1) + priceAt obs i) / 5

/-- `df['price'].pct_change(1)` at row `i ≥ 1`:
`(price[i] - price[i-1]) / price[i-1]` with IEEE division. -/
def pctChange (obs : List Obs) (i : ℕ) : FVal :=
  fdiv (priceAt obs i - priceAt obs (i - 1)) (priceAt obs (i - 1))

/-- A derived feature row, column order `[price, volume, SMA_5, price_change_1d]`. -/
structure FeatureRow where
  price : ℚ
  volume : ℚ
  sma5 : ℚ
  change : FVal
deriving DecidableEq, Repr

/-- The feature row built at index `i` of the sorted frame. -/
def featRow (obs : List Obs) (i : ℕ) : FeatureRow :=
  { price := priceAt obs i
    volume := volumeAt obs i
    sma5 := sma5 obs i
    change := pctChange obs i }

/-- Row `i` survives `df.dropna()`: `SMA_5` defined (`4 ≤ i`), the shifted
target `price[i+1]` defined (`i + 1 < len`), and `price_change_1d` not NaN
(NaN at `i = 0` and at 0/0; `4 ≤ i` already forces `1 ≤ i`). -/
def rowValid (obs : List Obs) (i : ℕ) : Bool :=
  decide (4 ≤ i) && decide (i + 1 < obs.length) && !(pctChange obs i).isNaN

/-- The `(features, target)` pair contributed by row `i`, or `none` if the
row is dropped. -/
def rowOpt (obs : List Obs) (i : ℕ) : Option (FeatureRow × ℚ) :=
  if rowValid obs i then some (featRow obs i, priceAt obs (i + 1)) else none

/-- `StockPriceModel._prepare_features` on an already-sorted frame: compute
`SMA_5`, `price_change_1d` and the shifted target, drop rows with any NaN,
and return the surviving `(X, y)` rows in frame order. -/
def prepare_features (obs : List Obs) : List (FeatureRow × ℚ) :=
  (List.range obs.length).filterMap (rowOpt obs)

/-- Timestamp ordering used by `df.sort_values('timestamp')`. -/
def tsLe (a b : Obs) : Prop := a.timestamp ≤ b.timestamp

instance : DecidableRel tsLe := fun a b => inferInstanceAs (Decidable (a.timestamp ≤ b.timestamp))

/-- `df.sort_values('timestamp')`: stable sort by ascending timestamp. -/
def sortByTs (obs : List Obs) : List Obs :=
  List.insertionSort tsLe obs

/-- The feature preparation used by `train`: sort by timestamp, then derive
`(X, y)` rows. -/
def derive_training (obs : List Obs) : List (FeatureRow × ℚ) :=
  prepare_features (sortByTs obs)

/-- `df['price'].iloc[-1]` on a sorted frame. -/
def lastPrice (df : List Obs) : ℚ :=
  priceAt df (df.length - 1)

/-- `StockPriceModel` for one symbol.  `pipeline = none` models the freshly
constructed (unfitted) scaler/estimator pair, whose `transform` raises
`NotFittedError`; `pipeline = some f` models the fitted pair produced by
`scaler.fit_transform` + `model.fit`. -/
structure StockPriceModel (F : Type) where
  symbol : String
  pipeline : Option F
deriving DecidableEq, Repr

/-- Outcome of `StockPriceModel.predict`:
`insufficient` = `{"error": "Not enough data for prediction"}` (empty `X`),
`notFitted` = `{"error": "Model not yet trained"}` (`NotFittedError` caught),
`payload` = the success dict
`{symbol, current_price, predicted_price, predicted_change,
predicted_change_percent, timestamp}` (the wall-clock timestamp is not
modelled). -/
inductive PredictResult where
  | insufficient : PredictResult
  | notFitted : PredictResult
  | payload (symbol : String) (current_price predicted_price predicted_change : ℚ)
      (predicted_change_percent : FVal) : PredictResult
deriving DecidableEq, Repr

/-- `StockPriceModel.predict`: sort the submitted data, derive features
(dropping rows exactly as at training time, shifted target included), take
the last surviving feature row, and run the fitted scaler/estimator on it.
An empty `X` is reported before the fitted check, as in the source. -/
def predict {F : Type} (app : F → FeatureRow → ℚ) (m : StockPriceModel F)
    (current_data : List Obs) : PredictResult :=
  let df := sortByTs current_data
  let X := (prepare_features df).map Prod.fst
  match X.getLast? with
  | none => .insufficient
  | some fed =>
    match m.pipeline with
    | none => .notFitted
    | some f =>
      let prediction := app f fed
      let current_price := lastPrice df
      .payload m.symbol current_price prediction (prediction - current_price)
        (fdiv ((prediction - current_price) * 100) current_price)

/-- Outcome of `StockPriceModel.train`:
`insufficient` = the bare `{"error": "Not enough data for training"}` dict,
`exn` = an uncaught exception (the `pred["predicted_price"]` lookup on an
error dict raises `KeyError`), `success` = the success dict
`{status, current_price, predicted_price, data_points}`. -/
inductive TrainOutcome where
  | insufficient : TrainOutcome
  | exn : TrainOutcome
  | success (current_price predicted_price : ℚ) (data_points : ℕ) : TrainOutcome
deriving DecidableEq, Repr

/-- `StockPriceModel.train`: sort, derive `(X, y)`; fewer than 10 surviving
rows returns the bare error dict and leaves the model untouched.  Otherwise
the scaler and estimator are refit (the pipeline is replaced), and a preview
prediction is run on the last 10 raw observations; if that preview returns an
error dict, the `pred["predicted_price"]` lookup raises (`exn`) — with the
model already fitted. -/
def train {F : Type} (fit : List (FeatureRow × ℚ) → F) (app : F → FeatureRow → ℚ)
    (m : StockPriceModel F) (historical_data : List Obs) :
    StockPriceModel F × TrainOutcome :=
  let df := sortByTs historical_data
  let Xy := prepare_features df
  if Xy.length < 10 then (m, .insufficient)
  else
    let fitted : StockPriceModel F := { m with pipeline := some (fit Xy) }
    let last_price := lastPrice df
    match predict app fitted (historical_data.drop (historical_data.length - 10)) with
    | .payload _ _ pred _ _ => (fitted, .success last_price pred Xy.length)
    | _ => (fitted, .exn)

/-- Python-dict lookup on an association list. -/
def dictGet {α : Type} (d : List (String × α)) (k : String) : Option α :=
  match d with
  | [] => none
  | (k', v) :: rest => if k' = k then some v else dictGet rest k

/-- Python-dict assignment `d[k] = v`: replace in place if the key exists,
otherwise append. -/
def dictSet {α : Type} (d : List (String × α)) (k : String) (v : α) :
    List (String × α) :=
  match d with
  | [] => [(k, v)]
  | (k', v') :: rest => if k' = k then (k, v) :: rest else (k', v') :: dictSet rest k v

/-- The process-wide shared state: the `data_store` history map and the
`models` registry. -/
structure ServiceState (F : Type) where
  data_store : List (String × List Obs)
  models : List (String × StockPriceModel F)
deriving Repr

/-- `data_store[symbol] = stock_data` — a full replace of the stored history. -/
def replaceHistory {F : Type} (st : ServiceState F) (s : String) (d : List Obs) :
    ServiceState F :=
  { st with data_store := dictSet st.data_store s d }

/-- `GET /data/<symbol>`: the stored history verbatim, or `none` (404). -/
def get_data {F : Type} (st : ServiceState F) (s : String) : Option (List Obs) :=
  dictGet st.data_store s

/-- Response of `POST /predict`:
`invalidInput` = the 400 `"Symbol and data required"` rejection,
`pendingTraining` = the 200 `pending_training` response to a failed initial
train, `serverError` = an exception escaping the handler (the preview-predict
`KeyError` inside `train`), `result` = the (possibly error) dict returned by
`predict`. -/
inductive EndpointResponse where
  | invalidInput : EndpointResponse
  | pendingTraining : EndpointResponse
  | serverError : EndpointResponse
  | result (r : PredictResult) : EndpointResponse
deriving DecidableEq, Repr

/-- `predict_endpoint` (`POST /predict`): validate, replace the stored
history, train-and-register a model if none exists (registration only after
a successful train), then predict from the registered model. -/
def predict_endpoint {F : Type} (fit : List (FeatureRow × ℚ) → F)
    (app : F → FeatureRow → ℚ) (st : ServiceState F)
    (symbol : Option String) (stock_data : Option (List Obs)) :
    ServiceState F × EndpointResponse :=
  match symbol, stock_data with
  | some s, some d =>
    if s = "" ∨ d = [] then (st, .invalidInput)
    else
      let st1 := replaceHistory st s d
      match dictGet st1.models s with
      | some m => (st1, .result (predict app m d))
      | none =>
        let r := train fit app { symbol := s, pipeline := none } d
        match r.2 with
        | .insufficient => (st1, .pendingTraining)
        | .exn => (st1, .serverError)
        | .success _ _ _ =>
          let st2 := { st1 with models := dictSet st1.models s r.1 }
          (st2, .result (predict app r.1 d))
  | _, _ => (st, .invalidInput)

/-- One pass of `background_training`'s `for symbol, data in data_store.items()`
loop over the remaining entries.  For each symbol with at least 20 stored
observations a model is registered **before** training (a fresh unfitted one
if absent) and then trained in place; the returned flag is `false` when a
training exception escaped — the `while True` thread has no handler, so the
tick stops there and no further tick ever runs. -/
def background_go {F : Type} (fit : List (FeatureRow × ℚ) → F)
    (app : F → FeatureRow → ℚ) :
    List (String × List Obs) → ServiceState F → ServiceState F × Bool
  | [], st => (st, true)
  | (s, d) :: rest, st =>
    if 20 ≤ d.length then
      let m := (dictGet st.models s).getD { symbol := s, pipeline := none }
      let r := train fit app m d
      let st' : ServiceState F := { st with models := dictSet st.models s r.1 }
      if r.2 = TrainOutcome.exn then (st', false)
      else background_go fit app rest st'
    else background_go fit app rest st

/-- One iteration of the `background_training` retrain loop over the whole
`data_store`. -/
def background_tick {F : Type} (fit : List (FeatureRow × ℚ) → F)
    (app : F → FeatureRow → ℚ) (st : ServiceState F) : ServiceState F × Bool :=
  background_go fit app st.data_store st

/-- Every model in the registry is fitted. -/
def allFitted {F : Type} (ms : List (String × StockPriceModel F)) : Bool :=
  ms.all fun p => p.2.pipeline.isSome

/-- Strictly increasing distinct timestamps, pairwise. -/
def tsLt (a b : Obs) : Prop := a.timestamp < b.timestamp

instance : DecidableRel tsLt := fun a b => inferInstanceAs (Decidable (a.timestamp < b.timestamp))

/-- No observation follows a zero-price observation with another zero price
(the 0/0 percent change is the only NaN a window/shift-surviving row can
still contain). -/
def noAdjacentZeroPrices (obs : List Obs) : Bool :=
  (List.range obs.length).all fun i =>
    decide (i = 0) || !(decide (priceAt obs (i - 1) = 0) && decide (priceAt obs i = 0))

/-- Build an observation list from a price list: volume `i` and timestamp `i`
at position `i` (strictly increasing distinct timestamps, distinct volumes). -/
def obsOfPrices (prices : List ℚ) : List Obs :=
  prices.enum.map fun ip =>
    { symbol := "", price := ip.2, volume := (ip.1 : ℚ), timestamp := (ip.1 : ℤ) }

/-- Trivial instantiation of the opaque fitting capability. -/
def fitU : List (FeatureRow × ℚ) → Unit := fun _ => ()

/-- Constant-zero instantiation of the opaque estimator capability. -/
def appU : Unit → FeatureRow → ℚ := fun _ _ => 0

/-- Estimator instantiation that reports the volume of the row it was fed,
used to observe which feature row reaches the estimator. -/
def appVol : Unit → FeatureRow → ℚ := fun _ r => r.volume

/-- 10 observations whose prices contain an adjacent 0/0 pair. -/
def exZeroPair : List Obs := obsOfPrices [1, 1, 1, 1, 1, 0, 0, 1, 1, 1]

/-- 7 observations with a single zero price followed by a nonzero price. -/
def exInfRow : List Obs := obsOfPrices [1, 1, 1, 1, 0, 5, 2]

/-- 7 observations whose second-to-last feature row is dropped (0/0). -/
def exShift : List Obs := obsOfPrices [1, 1, 1, 1, 0, 0, 7]

/-- 7 observations with plain increasing prices. -/
def exNice7 : List Obs := obsOfPrices [1, 2, 3, 4, 5, 6, 7]

/-- 20 observations, all with price 0: a sequence that passes the raw-count
threshold of the scheduler yet yields no valid feature rows. -/
def exZeros20 : List Obs := obsOfPrices (List.replicate 20 0)

/-- 26 observations whose full derivation keeps 13 rows (training fits) but
whose final 10 observations are all zero-priced, so the in-train preview
prediction returns an error dict and the `pred["predicted_price"]` lookup
raises. -/
def exRaises : List Obs :=
  obsOfPrices (((List.range 16).map fun i => ((i : ℚ) + 1)) ++ List.replicate 10 0)

/-- 25 observations with plain increasing prices: training succeeds. -/
def exGood25 : List Obs := obsOfPrices ((List.range 25).map fun i => ((i : ℚ) + 1))

/-- 10 observations with plain increasing prices: 5 valid rows, below the
training minimum. -/
def exTen : List Obs := obsOfPrices [1, 2, 3, 4, 5, 6, 7, 8, 9, 10]

/-- 6 observations with plain increasing prices: exactly one valid row. -/
def exSix : List Obs := obsOfPrices [1, 2, 3, 4, 5, 6]

theorem dictGet_dictSet {α : Type} (d : List (String × α)) (k k' : String) (v : α) :
    dictGet (dictSet d k v) k' = if k = k' then some v else dictGet d k' := by
  induction d with
  | nil => simp [dictGet, dictSet]
  | cons p rest ih =>
    obtain ⟨a, b⟩ := p
    by_cases hak : a = k <;> by_cases hkk : k = k' <;>
      simp_all [dictGet, dictSet]

theorem dictGet_dictSet_self {α : Type} (d : List (String × α)) (k : String) (v : α) :
    dictGet (dictSet d k v) k = some v := by
  simp [dictGet_dictSet]

theorem dictSet_dictSet_self {α : Type} (d : List (String × α)) (k : String) (v : α) :
    dictSet (dictSet d k v) k v = dictSet d k v := by
  induction d with
  | nil => simp [dictSet]
  | cons p rest ih =>
    obtain ⟨a, b⟩ := p
    by_cases hak : a = k <;> simp_all [dictSet]

theorem allFitted_dictSet {F : Type} (ms : List (String × StockPriceModel F))
    (k : String) (v : StockPriceModel F) (hv : v.pipeline.isSome = true) :
    allFitted ms = true → allFitted (dictSet ms k v) = true := by
  induction ms with
  | nil => intro _; simp [allFitted, dictSet, hv]
  | cons p rest ih =>
    obtain ⟨a, b⟩ := p
    intro hms
    rw [allFitted, List.all_cons, Bool.and_eq_true] at hms
    by_cases hak : a = k
    · subst hak
      rw [dictSet, if_pos rfl, allFitted, List.all_cons, Bool.and_eq_true]
      exact ⟨hv, hms.2⟩
    · rw [dictSet, if_neg hak, allFitted, List.all_cons, Bool.and_eq_true]
      exact ⟨hms.1, ih hms.2⟩

theorem filterMap_congr_some {α β : Type} (f : α → Option β) (g : α → β) :
    ∀ l : List α, (∀ a ∈ l, f a = some (g a)) → l.filterMap f = l.map g
  | [], _ => rfl
  | a :: t, h => by
    have ht := filterMap_congr_some f g t fun x hx => h x (List.mem_cons_of_mem a hx)
    simp [List.filterMap_cons, h a (List.mem_cons_self a t), ht]

theorem sortByTs_eq_self {obs : List Obs} (h : List.Pairwise tsLt obs) :
    sortByTs obs = obs :=
  List.Sorted.insertionSort_eq (List.Pairwise.imp (fun hab => le_of_lt hab) h)

theorem pctChange_isNaN_iff (obs : List Obs) (i : ℕ) :
    (pctChange obs i).isNaN = true ↔
      priceAt obs (i - 1) = 0 ∧ priceAt obs i = 0 := by
  by_cases hd : priceAt obs (i - 1) = 0
  · by_cases hn : priceAt obs i = 0
    · simp [pctChange, fdiv, hd, hn, FVal.isNaN]
    · have h1 : pctChange obs i = if 0 < priceAt obs i then FVal.pinf else FVal.ninf := by
        simp [pctChange, fdiv, hd, hn]
      rw [h1]
      split <;> simp [FVal.isNaN, hn]
  · simp [pctChange, fdiv, hd, FVal.isNaN]

theorem rowValid_iff (obs : List Obs) (i : ℕ) :
    rowValid obs i = true ↔
      4 ≤ i ∧ i + 1 < obs.length ∧
        ¬(priceAt obs (i - 1) = 0 ∧ priceAt obs i = 0) := by
  simp only [rowValid, Bool.and_eq_true, decide_eq_true_eq, Bool.not_eq_true',
    ← Bool.not_eq_true, pctChange_isNaN_iff, and_assoc]

theorem predict_some_eq {F : Type} (app : F → FeatureRow → ℚ) (sym : String) (f : F)
    (obs : List Obs) :
    predict app ⟨sym, some f⟩ obs =
      match ((prepare_features (sortByTs obs)).map Prod.fst).getLast? with
      | none => PredictResult.insufficient
      | some fed =>
        PredictResult.payload sym (lastPrice (sortByTs obs)) (app f fed)
          (app f fed - lastPrice (sortByTs obs))
          (fdiv ((app f fed - lastPrice (sortByTs obs)) * 100) (lastPrice (sortByTs obs))) := by
  cases hg : ((prepare_features (sortByTs obs)).map Prod.fst).getLast? <;>
    simp [predict, hg]

theorem predict_fitted_ne_notFitted {F : Type} (app : F → FeatureRow → ℚ)
    (m : StockPriceModel F) (f : F) (hm : m.pipeline = some f) (obs : List Obs) :
    predict app m obs ≠ PredictResult.notFitted := by
  cases hg : ((prepare_features (sortByTs obs)).map Prod.fst).getLast? <;>
    simp [predict, hg, hm]

theorem train_insufficient_of_short {F : Type} (fit : List (FeatureRow × ℚ) → F)
    (app : F → FeatureRow → ℚ) (m : StockPriceModel F) (data : List Obs)
    (h : (prepare_features (sortByTs data)).length < 10) :
    train fit app m data = (m, TrainOutcome.insufficient) := by
  simp [train, h]

theorem train_snd_eq {F : Type} (fit : List (FeatureRow × ℚ) → F)
    (app : F → FeatureRow → ℚ) (m : StockPriceModel F) (data : List Obs) :
    (train fit app m data).2 =
      if (prepare_features (sortByTs data)).length < 10 then TrainOutcome.insufficient
      else
        match ((prepare_features (sortByTs (data.drop (data.length - 10)))).map
            Prod.fst).getLast? with
        | none => TrainOutcome.exn
        | some fed =>
          TrainOutcome.success (lastPrice (sortByTs data))
            (app (fit (prepare_features (sortByTs data))) fed)
            (prepare_features (sortByTs data)).length := by
  by_cases hlen : (prepare_features (sortByTs data)).length < 10
  · simp [train, hlen]
  · simp only [train, if_neg hlen]
    rw [show ({ m with pipeline := some (fit (prepare_features (sortByTs data))) } :
        StockPriceModel F) =
      ⟨m.symbol, some (fit (prepare_features (sortByTs data)))⟩ from rfl]
    rw [predict_some_eq]
    cases hg : ((prepare_features (sortByTs (data.drop (data.length - 10)))).map
        Prod.fst).getLast? <;> simp [hg]

theorem train_success_shape {F : Type} {fit : List (FeatureRow × ℚ) → F}
    {app : F → FeatureRow → ℚ} {m m' : StockPriceModel F} {data : List Obs}
    {lp pp : ℚ} {c : ℕ}
    (h : train fit app m data = (m', TrainOutcome.success lp pp c)) :
    m' = { m with pipeline := some (fit (prepare_features (sortByTs data))) } ∧
      10 ≤ (prepare_features (sortByTs data)).length := by
  by_cases hlen : (prepare_features (sortByTs data)).length < 10
  · rw [train_insufficient_of_short fit app m data hlen] at h
    have h2 := congrArg Prod.snd h
    simp at h2
  · refine ⟨?_, Nat.le_of_not_lt hlen⟩
    simp only [train, if_neg hlen] at h
    split at h <;> injection h with h1 h2
    · exact h1.symm
    · exact absurd h2 (by simp)

theorem background_go_preserves {F : Type} (fit : List (FeatureRow × ℚ) → F)
    (app : F → FeatureRow → ℚ) (entries : List (String × List Obs)) :
    ∀ (st : ServiceState F) (k : String),
      (dictGet st.models k).isSome = true →
      (dictGet (background_go fit app entries st).1.models k).isSome = true := by
  induction entries with
  | nil => intro st k h; exact h
  | cons q rest ih =>
    intro st k h
    obtain ⟨s, d⟩ := q
    simp only [background_go]
    have hset : (dictGet (dictSet st.models s
        (train fit app ((dictGet st.models s).getD ⟨s, none⟩) d).1) k).isSome = true := by
      rw [dictGet_dictSet]
      by_cases hsk : s = k <;> simp [hsk, h]
    by_cases hlen : 20 ≤ d.length
    · simp only [if_pos hlen]
      by_cases hex :
          (train fit app ((dictGet st.models s).getD ⟨s, none⟩) d).2 = TrainOutcome.exn
      · simp only [if_pos hex]
        exact hset
      · simp only [if_neg hex]
        exact ih _ k hset
    · simp only [if_neg hlen]
      exact ih st k h

/-- C8: an ingest request with a missing or empty symbol, or missing or empty
data, is rejected with the `InvalidInput` (400) response before any shared
state is touched: the history store and the model registry are returned
exactly as they were. -/
theorem C8_invalid_input_rejected_state_unchanged {F : Type}
    (fit : List (FeatureRow × ℚ) → F) (app : F → FeatureRow → ℚ)
    (st : ServiceState F) (symbol : Option String) (stock_data : Option (List Obs))
    (h : symbol = none ∨ symbol = some "" ∨ stock_data = none ∨ stock_data = some []) :
    predict_endpoint fit app st symbol stock_data = (st, EndpointResponse.invalidInput) := by
  rcases h with h | h | h | h <;> subst h
  · cases stock_data <;> rfl
  · cases stock_data with
    | none => rfl
    | some d => simp [predict_endpoint]
  · cases symbol <;> rfl
  · cases symbol with
    | none => rfl
    | some s => simp [predict_endpoint]

/-- C8 witness: a concrete invalid request (empty data list) leaves a concrete
state untouched and yields `invalidInput`. -/
theorem C8_invalid_input_rejected_state_unchanged_witness :
    ((some "" : Option String) = none ∨ (some "" : Option String) = some "" ∨
        (some exSix : Option (List Obs)) = none ∨
        (some exSix : Option (List Obs)) = some []) ∧
      predict_endpoint fitU appU (⟨[], []⟩ : ServiceState Unit) (some "") (some exSix) =
        (⟨[], []⟩, EndpointResponse.invalidInput) :=
  ⟨Or.inr (Or.inl rfl),
    C8_invalid_input_rejected_state_unchanged fitU appU ⟨[], []⟩ (some "") (some exSix)
      (Or.inr (Or.inl rfl))⟩

/-- C9: history storage is a full replace, not an append — after one or two
consecutive replaces of symbol `s` with batch `D` the stored sequence equals
`D` exactly once, and `GET /data/<s>` returns the stored batch verbatim. -/
theorem C9_replace_not_append {F : Type} (st : ServiceState F) (s : String)
    (D : List Obs) :
    get_data (replaceHistory st s D) s = some D ∧
      get_data (replaceHistory (replaceHistory st s D) s D) s = some D ∧
      replaceHistory (replaceHistory st s D) s D = replaceHistory st s D := by
  refine ⟨?_, ?_, ?_⟩
  · exact dictGet_dictSet_self st.data_store s D
  · exact dictGet_dictSet_self _ s D
  · simp only [replaceHistory]
    rw [dictSet_dictSet_self]

/-- C6 counterexample: a model that has completed no successful train can
nonetheless be fitted — `train` on `exRaises` fits the scaler/estimator in
place and only then raises the preview `KeyError` (outcome `exn`, not a
success) — and `predict` on that model over a sufficient sequence returns a
payload, not `NotFitted`, refuting the claim that predict before any
*successful* train always fails with `NotFitted`. -/
theorem C6_counterexample_fitted_without_successful_train :
    train fitU appU (⟨"A", none⟩ : StockPriceModel Unit) exRaises =
        (⟨"A", some ()⟩, TrainOutcome.exn) ∧
      prepare_features (sortByTs exSix) ≠ [] ∧
      predict appU (⟨"A", some ()⟩ : StockPriceModel Unit) exSix =
        PredictResult.payload "A" 6 0 (0 - 6) (fdiv ((0 - 6) * 100) 6) := by
  refine ⟨?_, ?_, ?_⟩ <;> decide

/-- C6 (amended): on a sequence yielding at least one valid derived feature
row, `predict` on a model that has never been *fitted* (its scaler/estimator
pair was never fit — every training attempt so far returned the
`InsufficientData` error before fitting) always fails with `NotFitted` (the
unfitted scaler raises `NotFittedError`, which is caught), never with any
other outcome.  A training attempt that fits and then raises the preview
`KeyError` leaves the model fitted despite completing no successful train,
and `predict` then returns a payload — see the counterexample. -/
theorem C6_predict_before_train_notFitted {F : Type} (app : F → FeatureRow → ℚ)
    (m : StockPriceModel F) (obs : List Obs) (hm : m.pipeline = none)
    (hrows : prepare_features (sortByTs obs) ≠ []) :
    predict app m obs = PredictResult.notFitted := by
  have hx : (prepare_features (sortByTs obs)).map Prod.fst ≠ [] := by
    simpa using hrows
  cases hg : ((prepare_features (sortByTs obs)).map Prod.fst).getLast? with
  | none => exact absurd (List.getLast?_eq_none_iff.mp hg) hx
  | some fed => simp [predict, hg, hm]

/-- C6 witness: a fresh (unfitted) model on a concrete 6-observation sequence
with one valid feature row answers `NotFitted`. -/
theorem C6_predict_before_train_notFitted_witness :
    (StockPriceModel.pipeline (⟨"X", none⟩ : StockPriceModel Unit) = none) ∧
      prepare_features (sortByTs exSix) ≠ [] ∧
      predict appU (⟨"X", none⟩ : StockPriceModel Unit) exSix = PredictResult.notFitted :=
  ⟨rfl, by decide,
    C6_predict_before_train_notFitted appU ⟨"X", none⟩ exSix rfl (by decide)⟩

/-- C7: whenever `train` succeeds on a sequence, an immediate `predict` on
that same sequence never fails with `NotFitted` (the model is fitted, and
`predict` with a fitted pipeline can only answer `insufficient` or a
payload). -/
theorem C7_predict_after_train_not_notFitted {F : Type}
    (fit : List (FeatureRow × ℚ) → F) (app : F → FeatureRow → ℚ)
    (m m' : StockPriceModel F) (data : List Obs) (lp pp : ℚ) (c : ℕ)
    (h : train fit app m data = (m', TrainOutcome.success lp pp c)) :
    predict app m' data ≠ PredictResult.notFitted := by
  obtain ⟨hm', -⟩ := train_success_shape h
  exact predict_fitted_ne_notFitted app m'
    (fit (prepare_features (sortByTs data))) (by rw [hm']) data

/-- C7 witness: training on a concrete 25-observation sequence succeeds, and
the immediate `predict` on the same sequence is not `NotFitted`. -/
theorem C7_predict_after_train_not_notFitted_witness :
    train fitU appU (⟨"B", none⟩ : StockPriceModel Unit) exGood25 =
        (⟨"B", some ()⟩, TrainOutcome.success 25 0 20) ∧
      predict appU (⟨"B", some ()⟩ : StockPriceModel Unit) exGood25 ≠
        PredictResult.notFitted :=
  ⟨by decide,
    C7_predict_after_train_not_notFitted fitU appU ⟨"B", none⟩ ⟨"B", some ()⟩
      exGood25 25 0 20 (by decide)⟩

/-- C5 counterexample: two sequences whose derivations yield different
valid-row counts (5 and 1) produce *identical* training-failure results —
the `{"error": "Not enough data for training"}` dict is bare, so the failure
cannot carry the count of valid rows, refuting the claim that it does. -/
theorem C5_counterexample_failure_carries_no_count :
    (train fitU appU (⟨"A", none⟩ : StockPriceModel Unit) exTen).2 =
        (train fitU appU (⟨"A", none⟩ : StockPriceModel Unit) exSix).2 ∧
      (prepare_features (sortByTs exTen)).length = 5 ∧
      (prepare_features (sortByTs exSix)).length = 1 := by
  refine ⟨?_, by decide, by decide⟩
  decide

/-- C5 (amended): whenever feature derivation yields fewer than 10 valid
rows, `train` fails with the `InsufficientData` error result and leaves the
model untouched; the failure result is the bare error message and does not
carry the count of valid rows (the count is reported, as `data_points`, only
on success). -/
theorem C5_insufficient_rows_train_fails {F : Type}
    (fit : List (FeatureRow × ℚ) → F) (app : F → FeatureRow → ℚ)
    (m : StockPriceModel F) (data : List Obs)
    (h : (prepare_features (sortByTs data)).length < 10) :
    train fit app m data = (m, TrainOutcome.insufficient) :=
  train_insufficient_of_short fit app m data h

/-- C5 witness: a concrete 10-observation sequence derives 5 valid rows and
training fails with the bare `InsufficientData` result. -/
theorem C5_insufficient_rows_train_fails_witness :
    (prepare_features (sortByTs exTen)).length < 10 ∧
      train fitU appU (⟨"A", none⟩ : StockPriceModel Unit) exTen =
        (⟨"A", none⟩, TrainOutcome.insufficient) :=
  ⟨by decide,
    C5_insufficient_rows_train_fails fitU appU ⟨"A", none⟩ exTen (by decide)⟩

/-- C2 counterexample: a background tick over a store holding 20 zero-priced
observations for symbol `"A"` (which passes the raw-count threshold but
derives no valid rows, so its only training attempt fails) leaves an
*unfitted* model registered for `"A"` — the scheduler registers the model
before training and ignores the failure, refuting the registry invariant. -/
theorem C2_counterexample_background_registers_unfitted :
    ((background_tick fitU appU
          (⟨[("A", exZeros20)], []⟩ : ServiceState Unit)).1.models.map
        fun p => (p.1, p.2.pipeline)) = [("A", (none : Option Unit))] ∧
      (background_tick fitU appU
          (⟨[("A", exZeros20)], []⟩ : ServiceState Unit)).2 = true ∧
      allFitted (background_tick fitU appU
          (⟨[("A", exZeros20)], []⟩ : ServiceState Unit)).1.models = false := by
  refine ⟨?_, ?_, ?_⟩ <;> decide

/-- C2 (amended): on the request path the invariant holds — a model is
registered only after its initial train succeeds, so an all-fitted registry
stays all-fitted across any `POST /predict` request; the background
scheduler, however, registers a model *before* training it and ignores the
outcome, so a failed background training attempt can leave an unfitted model
in the registry. -/
theorem C2_request_path_registers_only_fitted {F : Type}
    (fit : List (FeatureRow × ℚ) → F) (app : F → FeatureRow → ℚ)
    (st : ServiceState F) (symbol : Option String) (stock_data : Option (List Obs))
    (h : allFitted st.models = true) :
    allFitted (predict_endpoint fit app st symbol stock_data).1.models = true := by
  match symbol, stock_data with
  | none, _ => exact h
  | some s, none => exact h
  | some s, some d =>
    simp only [predict_endpoint]
    by_cases hv : s = "" ∨ d = []
    · simp only [if_pos hv]; exact h
    · simp only [if_neg hv]
      cases hm : dictGet (replaceHistory st s d).models s with
      | some m => exact h
      | none =>
        cases hr : (train fit app (⟨s, none⟩ : StockPriceModel F) d).2 with
        | insufficient => exact h
        | exn => exact h
        | success lp pp c =>
          have hsh : train fit app (⟨s, none⟩ : StockPriceModel F) d =
              ((train fit app (⟨s, none⟩ : StockPriceModel F) d).1,
                TrainOutcome.success lp pp c) := by
            rw [← hr]
          obtain ⟨hm', -⟩ := train_success_shape hsh
          apply allFitted_dictSet _ s _ _ h
          rw [hm']
          rfl

/-- C2 witness: a concrete successful ingest on an empty (trivially
all-fitted) registry yields an all-fitted registry. -/
theorem C2_request_path_registers_only_fitted_witness :
    allFitted ([] : List (String × StockPriceModel Unit)) = true ∧
      allFitted (predict_endpoint fitU appU (⟨[], []⟩ : ServiceState Unit)
          (some "B") (some exGood25)).1.models = true :=
  ⟨rfl, C2_request_path_registers_only_fitted fitU appU ⟨[], []⟩
    (some "B") (some exGood25) rfl⟩

/-- C3 counterexample: with symbol `"A"` holding 26 observations whose
training raises (fit succeeds on 13 rows, but the in-train preview predict
on the 10 trailing zero-priced observations returns an error dict and the
`pred["predicted_price"]` lookup raises `KeyError`) followed by symbol `"B"`
holding 25 trainable observations, the background tick aborts: the loop dies
(`false` — the thread has no handler, so no later tick runs either) and `"B"`
is never trained or registered, refuting the claim that a per-symbol
training failure is swallowed and cannot halt the loop. -/
theorem C3_counterexample_exception_halts_loop :
    (train fitU appU (⟨"A", none⟩ : StockPriceModel Unit) exRaises).2 =
        TrainOutcome.exn ∧
      20 ≤ exGood25.length ∧
      (background_tick fitU appU
          (⟨[("A", exRaises), ("B", exGood25)], []⟩ : ServiceState Unit)).2 = false ∧
      dictGet (background_tick fitU appU
          (⟨[("A", exRaises), ("B", exGood25)], []⟩ : ServiceState Unit)).1.models "B" =
        none := by
  refine ⟨?_, ?_, ?_, ?_⟩ <;> decide

/-- C3 (amended): a training failure that is *returned* as an error value
(`InsufficientData`) during a background tick does not halt the loop — if no
symbol's training raises an exception, the tick survives and every symbol
meeting the 20-observation threshold ends the tick with a model registered;
but the failure is not specially logged, and a training failure that *raises*
(the preview-prediction `KeyError`) aborts the tick, skips the remaining
symbols, and permanently stops the scheduler. -/
theorem C3_returned_failures_do_not_halt_tick {F : Type}
    (fit : List (FeatureRow × ℚ) → F) (app : F → FeatureRow → ℚ)
    (entries : List (String × List Obs)) :
    ∀ st : ServiceState F,
      (∀ p ∈ entries,
        (train fit app (⟨"", none⟩ : StockPriceModel F) p.2).2 ≠ TrainOutcome.exn) →
      (background_go fit app entries st).2 = true ∧
        ∀ p ∈ entries, 20 ≤ p.2.length →
          (dictGet (background_go fit app entries st).1.models p.1).isSome = true := by
  induction entries with
  | nil => exact fun st h => ⟨rfl, by simp⟩
  | cons q rest ih =>
    intro st h
    obtain ⟨s, d⟩ := q
    have hd : (train fit app (⟨"", none⟩ : StockPriceModel F) d).2 ≠ TrainOutcome.exn :=
      h (s, d) (List.mem_cons_self _ _)
    have hrest : ∀ p ∈ rest,
        (train fit app (⟨"", none⟩ : StockPriceModel F) p.2).2 ≠ TrainOutcome.exn :=
      fun p hp => h p (List.mem_cons_of_mem _ hp)
    simp only [background_go]
    by_cases hlen : 20 ≤ d.length
    · have hex : (train fit app ((dictGet st.models s).getD ⟨s, none⟩) d).2 ≠
          TrainOutcome.exn := by
        rw [train_snd_eq]
        rw [train_snd_eq] at hd
        exact hd
      simp only [if_pos hlen, if_neg hex]
      obtain ⟨h1, h2⟩ := ih
        ⟨st.data_store,
          dictSet st.models s (train fit app ((dictGet st.models s).getD ⟨s, none⟩) d).1⟩
        hrest
      refine ⟨h1, ?_⟩
      intro p hp hplen
      rcases List.mem_cons.mp hp with hph | hpr
      · subst hph
        apply background_go_preserves
        simp [dictGet_dictSet]
      · exact h2 p hpr hplen
    · simp only [if_neg hlen]
      obtain ⟨h1, h2⟩ := ih st hrest
      refine ⟨h1, ?_⟩
      intro p hp hplen
      rcases List.mem_cons.mp hp with hph | hpr
      · subst hph
        exact absurd hplen hlen
      · exact h2 p hpr hplen

/-- C3 witness: a two-symbol store where `"A"` (20 zero-priced observations)
fails training with the returned `InsufficientData` error — the tick
survives and the later symbol `"B"` is still processed and registered. -/
theorem C3_returned_failures_do_not_halt_tick_witness :
    (train fitU appU (⟨"", none⟩ : StockPriceModel Unit) exZeros20).2 ≠
        TrainOutcome.exn ∧
      (train fitU appU (⟨"", none⟩ : StockPriceModel Unit) exGood25).2 ≠
        TrainOutcome.exn ∧
      (background_go fitU appU [("A", exZeros20), ("B", exGood25)]
          (⟨[("A", exZeros20), ("B", exGood25)], []⟩ : ServiceState Unit)).2 = true ∧
      (dictGet (background_go fitU appU [("A", exZeros20), ("B", exGood25)]
          (⟨[("A", exZeros20), ("B", exGood25)], []⟩ : ServiceState Unit)).1.models
        "B").isSome = true :=
  ⟨by decide, by decide,
    (C3_returned_failures_do_not_halt_tick fitU appU
      [("A", exZeros20), ("B", exGood25)]
      ⟨[("A", exZeros20), ("B", exGood25)], []⟩ (by decide)).1,
    (C3_returned_failures_do_not_halt_tick fitU appU
      [("A", exZeros20), ("B", exGood25)]
      ⟨[("A", exZeros20), ("B", exGood25)], []⟩ (by decide)).2
      ("B", exGood25) (by decide) (by decide)⟩

/-- C1 counterexample: a 10-observation sequence with strictly increasing
distinct timestamps whose prices contain an adjacent 0/0 pair derives only
4 rows, not `10 - 5 = 5`: the 0/0 percent change is NaN and that row is
dropped beyond the window/shift losses. -/
theorem C1_counterexample_zero_pair_drops_extra_row :
    exZeroPair.length = 10 ∧
      List.Pairwise tsLt exZeroPair ∧
      (derive_training exZeroPair).length = 4 ∧
      ¬(derive_training exZeroPair).length = exZeroPair.length - 5 := by
  refine ⟨?_, ?_, ?_, ?_⟩ <;> decide

/-- C1 (amended): for every observation sequence of length `n ≥ 10` with
strictly increasing distinct timestamps *and no two adjacent observations
both priced zero*, `derive_training` produces exactly the rows at indices
`4 .. n-2` in timestamp order — `n - 5` rows, with 4 lost to the 5-window
moving average and 1 lost to the next-price target shift. -/
theorem C1_training_rows_count_and_order (obs : List Obs)
    (h10 : 10 ≤ obs.length) (hsort : List.Pairwise tsLt obs)
    (hz : noAdjacentZeroPrices obs = true) :
    derive_training obs = (List.range' 4 (obs.length - 5)).map
        (fun i => (featRow obs i, priceAt obs (i + 1))) ∧
      (derive_training obs).length = obs.length - 5 := by
  have hz' : ∀ i, i ≠ 0 → i < obs.length →
      ¬(priceAt obs (i - 1) = 0 ∧ priceAt obs i = 0) := by
    intro i h0 hi hand
    have h2 := List.all_eq_true.mp hz i (List.mem_range.mpr hi)
    simp [h0, hand.1, hand.2] at h2
  have hsorted : derive_training obs = prepare_features obs := by
    rw [derive_training, sortByTs_eq_self hsort]
  have hrow : ∀ i ∈ List.range' 4 (obs.length - 5),
      rowOpt obs i = some (featRow obs i, priceAt obs (i + 1)) := by
    intro i hi
    rw [List.mem_range'] at hi
    obtain ⟨j, hj, rfl⟩ := hi
    rw [rowOpt, if_pos]
    rw [rowValid_iff]
    exact ⟨by omega, by omega, hz' _ (by omega) (by omega)⟩
  have hlow : ∀ i ∈ List.range' 0 4, rowOpt obs i = none := by
    intro i hi
    rw [List.mem_range'] at hi
    obtain ⟨j, hj, rfl⟩ := hi
    rw [rowOpt, if_neg]
    rw [rowValid_iff]
    rintro ⟨h4, -, -⟩
    omega
  have hlast : rowOpt obs (obs.length - 1) = none := by
    rw [rowOpt, if_neg]
    rw [rowValid_iff]
    rintro ⟨-, h5, -⟩
    omega
  have h1 : List.range' 0 4 ++ List.range' 4 (obs.length - 5) =
      List.range' 0 (obs.length - 1) := by
    have ha := List.range'_append_1 0 4 (obs.length - 5)
    rw [show obs.length - 5 + 4 = obs.length - 1 from by omega] at ha
    simpa using ha
  have h2 : List.range' 0 (obs.length - 1) ++ [obs.length - 1] =
      List.range' 0 obs.length := by
    have hb := List.range'_1_concat 0 (obs.length - 1)
    rw [show obs.length - 1 + 1 = obs.length from by omega] at hb
    simp only [Nat.zero_add] at hb
    exact hb.symm
  have hsplit : List.range obs.length =
      (List.range' 0 4 ++ List.range' 4 (obs.length - 5)) ++ [obs.length - 1] := by
    rw [h1, h2, List.range_eq_range']
  have hmain : derive_training obs = (List.range' 4 (obs.length - 5)).map
      (fun i => (featRow obs i, priceAt obs (i + 1))) := by
    rw [hsorted, prepare_features, hsplit, List.filterMap_append, List.filterMap_append]
    rw [filterMap_congr_some _ _ _ hrow]
    rw [List.filterMap_eq_nil_iff.mpr hlow]
    simp [List.filterMap_cons, hlast]
  exact ⟨hmain, by rw [hmain]; simp⟩

/-- C1 witness: a concrete 10-observation strictly-timestamped positive-price
sequence derives exactly the 5 rows at indices 4..8 in order. -/
theorem C1_training_rows_count_and_order_witness :
    10 ≤ exTen.length ∧ List.Pairwise tsLt exTen ∧
      noAdjacentZeroPrices exTen = true ∧
      (derive_training exTen = (List.range' 4 (exTen.length - 5)).map
          (fun i => (featRow exTen i, priceAt exTen (i + 1))) ∧
        (derive_training exTen).length = exTen.length - 5) :=
  ⟨by decide, by decide, by decide,
    C1_training_rows_count_and_order exTen (by decide) (by decide) (by decide)⟩

/-- C4 counterexample: in a sorted 7-observation sequence with
`price[4] = 0` and `price[5] = 5`, the percent change at index 5 is `+inf`
(not NaN) and the row at index 5 is *retained* in the derived training rows,
refuting the claim that every row whose previous price is zero is dropped. -/
theorem C4_counterexample_zero_prev_price_row_retained :
    priceAt exInfRow 4 = 0 ∧ priceAt exInfRow 5 = 5 ∧
      (featRow exInfRow 5).change = FVal.pinf ∧
      rowOpt exInfRow 5 = some (featRow exInfRow 5, 2) ∧
      (featRow exInfRow 5, (2 : ℚ)) ∈ derive_training exInfRow := by
  refine ⟨?_, ?_, ?_, ?_, ?_⟩ <;> decide

/-- C4 (amended): `price_change_1d[i] = (price[i] - price[i-1]) / price[i-1]`
whenever `price[i-1] ≠ 0`, and such a window/shift-surviving row is kept; a
row with `price[i-1] = 0` is dropped only when `price[i] = 0` as well (0/0 is
NaN); when `price[i-1] = 0` and `price[i] ≠ 0` the change is a signed
infinity and the row is *retained* — the same `rowOpt` feeds both the
training and the inference derivation. -/
theorem C4_pct_change_formula_and_drop_policy (obs : List Obs) (i : ℕ)
    (h4 : 4 ≤ i) (hi : i + 1 < obs.length) :
    (priceAt obs (i - 1) ≠ 0 →
        pctChange obs i =
            FVal.val ((priceAt obs i - priceAt obs (i - 1)) / priceAt obs (i - 1)) ∧
          rowOpt obs i = some (featRow obs i, priceAt obs (i + 1))) ∧
      (priceAt obs (i - 1) = 0 → priceAt obs i = 0 → rowOpt obs i = none) ∧
      (priceAt obs (i - 1) = 0 → priceAt obs i ≠ 0 →
        rowOpt obs i = some (featRow obs i, priceAt obs (i + 1))) := by
  refine ⟨fun hd => ⟨?_, ?_⟩, fun hd hc => ?_, fun hd hc => ?_⟩
  · simp [pctChange, fdiv, hd]
  · rw [rowOpt, if_pos]
    rw [rowValid_iff]
    exact ⟨h4, hi, fun hand => hd hand.1⟩
  · rw [rowOpt, if_neg]
    rw [rowValid_iff]
    rintro ⟨-, -, hno⟩
    exact hno ⟨hd, hc⟩
  · rw [rowOpt, if_pos]
    rw [rowValid_iff]
    exact ⟨h4, hi, fun hand => hc hand.2⟩

/-- C4 witness: at index 5 of a concrete sequence with `price[4] = 0` and
`price[5] = 5` the hypotheses hold and the drop-policy conclusions follow. -/
theorem C4_pct_change_formula_and_drop_policy_witness :
    4 ≤ 5 ∧ 5 + 1 < exInfRow.length ∧
      (priceAt exInfRow 4 = 0 → priceAt exInfRow 5 ≠ 0 →
        rowOpt exInfRow 5 = some (featRow exInfRow 5, priceAt exInfRow 6)) :=
  ⟨by decide, by decide,
    (C4_pct_change_formula_and_drop_policy exInfRow 5 (by decide) (by decide)).2.2⟩

theorem rowOpt_last_none (obs : List Obs) :
    rowOpt obs (obs.length - 1) = none := by
  rw [rowOpt, if_neg]
  rw [rowValid_iff]
  rintro ⟨h4, hb, -⟩
  omega

theorem prepare_features_getLast (obs : List Obs)
    (hvalid : rowValid obs (obs.length - 2) = true) :
    (prepare_features obs).getLast? =
      some (featRow obs (obs.length - 2), priceAt obs (obs.length - 1)) := by
  have hv := (rowValid_iff _ _).mp hvalid
  have h6 : 6 ≤ obs.length := by omega
  have e1 : List.range obs.length = List.range (obs.length - 1) ++ [obs.length - 1] := by
    conv_lhs => rw [show obs.length = obs.length - 1 + 1 from by omega, List.range_succ]
  have e2 : List.range (obs.length - 1) =
      List.range (obs.length - 2) ++ [obs.length - 2] := by
    conv_lhs => rw [show obs.length - 1 = obs.length - 2 + 1 from by omega, List.range_succ]
  have hsome : rowOpt obs (obs.length - 2) =
      some (featRow obs (obs.length - 2), priceAt obs (obs.length - 1)) := by
    rw [rowOpt, if_pos hvalid, show obs.length - 2 + 1 = obs.length - 1 from by omega]
  rw [prepare_features, e1, List.filterMap_append, e2, List.filterMap_append]
  rw [List.filterMap_cons_some hsome, List.filterMap_cons_none (rowOpt_last_none obs)]
  simp

/-- C10: on the inference path the training-target shift and row dropping
apply as well: a sequence shorter than 6 observations yields no surviving
feature row, the final observation never yields one, and — whenever the row
at the second-to-last observation survives — the feature row fed to the
estimator in `predict` is the one derived from the *second-to-last*
observation, while `current_price` in the payload is the final observation's
price.  (The counterexample shows that when the second-to-last row is itself
dropped, an even earlier row is fed instead.) -/
theorem C10_predict_feeds_second_to_last_row {F : Type}
    (app : F → FeatureRow → ℚ) (m : StockPriceModel F) (f : F) (obs : List Obs)
    (hm : m.pipeline = some f) (hsort : List.Pairwise tsLt obs)
    (hvalid : rowValid obs (obs.length - 2) = true) :
    predict app m obs =
        PredictResult.payload m.symbol (priceAt obs (obs.length - 1))
          (app f (featRow obs (obs.length - 2)))
          (app f (featRow obs (obs.length - 2)) - priceAt obs (obs.length - 1))
          (fdiv ((app f (featRow obs (obs.length - 2)) -
              priceAt obs (obs.length - 1)) * 100)
            (priceAt obs (obs.length - 1))) ∧
      rowOpt obs (obs.length - 1) = none ∧
      (∀ obs' : List Obs, obs'.length < 6 → prepare_features obs' = []) := by
  refine ⟨?_, rowOpt_last_none obs, ?_⟩
  · have hm2 : m = ⟨m.symbol, some f⟩ := by
      cases m with
      | mk s p => simp at hm; rw [hm]
    rw [hm2, predict_some_eq, sortByTs_eq_self hsort]
    rw [List.getLast?_map, prepare_features_getLast obs hvalid]
    rfl
  · intro obs' hlen
    rw [prepare_features, List.filterMap_eq_nil_iff]
    intro i hi
    rw [rowOpt, if_neg]
    rw [rowValid_iff]
    rintro ⟨h4, hb, -⟩
    omega

/-- C10 counterexample: with prices `[1,1,1,1,0,0,7]` the row at the
second-to-last observation (index 5) is dropped (its percent change is
0/0 = NaN), and `predict` — instrumented with an estimator that returns the
volume of the row it is fed — reports prediction 4: the row actually fed is
the one derived from observation index 4, not the second-to-last, while
`current_price` is still 7. -/
theorem C10_counterexample_fed_row_not_second_to_last :
    rowOpt exShift (exShift.length - 2) = none ∧
      (featRow exShift 4).volume = 4 ∧ (featRow exShift 5).volume = 5 ∧
      predict appVol (⟨"X", some ()⟩ : StockPriceModel Unit) exShift =
        PredictResult.payload "X" 7 4 (4 - 7) (fdiv ((4 - 7) * 100) 7) := by
  refine ⟨?_, ?_, ?_, ?_⟩ <;> decide

/-- C10 witness: on a concrete plain 7-observation sequence the fitted model
predicts from the row built at index 5 (the second-to-last observation) and
reports the last price 7. -/
theorem C10_predict_feeds_second_to_last_row_witness :
    (StockPriceModel.pipeline (⟨"Y", some ()⟩ : StockPriceModel Unit) = some ()) ∧
      List.Pairwise tsLt exNice7 ∧
      rowValid exNice7 (exNice7.length - 2) = true ∧
      predict appVol (⟨"Y", some ()⟩ : StockPriceModel Unit) exNice7 =
        PredictResult.payload "Y" (priceAt exNice7 (exNice7.length - 1))
          (appVol () (featRow exNice7 (exNice7.length - 2)))
          (appVol () (featRow exNice7 (exNice7.length - 2)) -
            priceAt exNice7 (exNice7.length - 1))
          (fdiv ((appVol () (featRow exNice7 (exNice7.length - 2)) -
              priceAt exNice7 (exNice7.length - 1)) * 100)
            (priceAt exNice7 (exNice7.length - 1))) ∧
      rowOpt exNice7 (exNice7.length - 1) = none :=
  ⟨rfl, by decide, by decide,
    (C10_predict_feeds_second_to_last_row appVol ⟨"Y", some ()⟩ () exNice7
      rfl (by decide) (by decide)).1,
    (C10_predict_feeds_second_to_last_row appVol ⟨"Y", some ()⟩ () exNice7
      rfl (by decide) (by decide)).2.1⟩
